import Mathlib

/-
Shallow embedding of the voxfile decoder core (src/parser.rs, src/types.rs,
src/error.rs).  Bytes are lists of UInt8.  The nom combinators used by the
source are modelled one to one:

  * number::complete::le_u8 / le_u32 / le_i32  -> leU8 / leU32 / leI32
  * number::complete::le_f32                   -> leF32: a 32 bit float is
    modelled by its little endian bit pattern (a Nat below 2^32); the decoder
    only moves the four raw bytes, no float arithmetic ever happens, so the
    bit pattern is a faithful and lossless representation.
  * bytes::complete::take                      -> takeP (fails with kind eof)
  * bytes::complete::tag                       -> tagP  (fails with kind tag)
  * combinator::map_res(take(n), from_utf8)    -> takeUtf8 (kind mapRes)
  * multi::count                               -> countP.  nom wraps an inner
    error with ErrorKind::Count through ParseError::append, and the default
    error type nom::error::Error discards the appended kind, so the inner
    error propagates unchanged, which is what countP does.
  * multi::many0                               -> many0Body: repeatedly apply
    the inner parser, stop at the first inner failure and return the prefix
    parsed so far together with the unconsumed leftover; the inner parser
    succeeding without consuming input is the ErrorKind::Many0 failure.

The mutual recursion parse_chunk / many0(parse_chunk) is realised with a
fuel parameter that is structural recursion on Nat, so the kernel can
evaluate the parser on concrete inputs; parse_chunk always consumes at
least the 12 header bytes on success, so fuel (input length + 1) is always
sufficient (many0ChunksF_total below).

Rust String values are UTF-8 byte sequences; they are modelled by their
byte content (RString).  The Rust type Dict = HashMap<String, String> is
modelled by its observable content: an association list with at most one
entry per key, built by insert-or-replace exactly like HashMap::from_iter
(later duplicate keys overwrite earlier ones).  Iteration order of a std
HashMap is unspecified and seed dependent, so no statement below relies on
the order of this list beyond what lookup and size observe.
-/

namespace Vox

abbrev Bytes := List UInt8

/-- Rust String content: the UTF-8 bytes of the string. -/
abbrev RString := List UInt8

/-- nom ErrorKind values reachable in this parser. -/
inductive ErrKind where
  | eof
  | tagKind
  | mapRes
  | many0
deriving DecidableEq, Repr

/-- nom::error::Error: the input position at the failure and the error kind. -/
structure NomError where
  kind : ErrKind
  input : Bytes
deriving DecidableEq, Repr

/-- IResult of nom: remaining input and value, or an error. -/
abbrev PResult (α : Type) := Except NomError (Bytes × α)

/-- error.rs DotVoxError.  NoMainChunk is declared by the source but no
function of the source ever constructs it; parse_file signals a non MAIN
root with a plain nom error of kind Eof instead (parser.rs line 140). -/
inductive DotVoxError where
  | noMainChunk
  | nomError (e : NomError)
  | ioError
deriving DecidableEq, Repr

def u32FromBytes (b0 b1 b2 b3 : UInt8) : Nat :=
  b0.toNat + 256 * b1.toNat + 65536 * b2.toNat + 16777216 * b3.toNat

/-- The little endian u32 denoted by the first four bytes (0 if fewer). -/
def u32LE : Bytes → Nat
  | b0 :: b1 :: b2 :: b3 :: _ => u32FromBytes b0 b1 b2 b3
  | _ => 0

/-- Little endian encoding of a u32 value into four bytes. -/
def enc32 (n : Nat) : Bytes :=
  [UInt8.ofNat n, UInt8.ofNat (n / 256), UInt8.ofNat (n / 65536), UInt8.ofNat (n / 16777216)]

/-- nom number::complete::le_u8. -/
def leU8 (input : Bytes) : PResult UInt8 :=
  match input with
  | b :: rest => .ok (rest, b)
  | [] => .error ⟨.eof, input⟩

/-- nom number::complete::le_u32. -/
def leU32 (input : Bytes) : PResult Nat :=
  match input with
  | b0 :: b1 :: b2 :: b3 :: rest => .ok (rest, u32FromBytes b0 b1 b2 b3)
  | _ => .error ⟨.eof, input⟩

/-- nom number::complete::le_i32: two complement signed reading. -/
def leI32 (input : Bytes) : PResult Int :=
  match input with
  | b0 :: b1 :: b2 :: b3 :: rest =>
      let n := u32FromBytes b0 b1 b2 b3
      .ok (rest, if n < 2147483648 then (n : Int) else (n : Int) - 4294967296)
  | _ => .error ⟨.eof, input⟩

/-- nom number::complete::le_f32, as the 32 bit pattern (see header comment). -/
abbrev F32 := Nat

def leF32 (input : Bytes) : PResult F32 := leU32 input

/-- nom bytes::complete::take. -/
def takeP (n : Nat) (input : Bytes) : PResult Bytes :=
  if input.length < n then .error ⟨.eof, input⟩
  else .ok (input.drop n, input.take n)

/-- nom bytes::complete::tag. -/
def tagP (t : Bytes) (input : Bytes) : PResult Bytes :=
  if input.take t.length = t then .ok (input.drop t.length, t)
  else .error ⟨.tagKind, input⟩

/-- One step of the UTF-8 validation automaton used by str::from_utf8.
State 0 expects a sequence start; states 1 to 3 expect that many
continuation bytes in 80..BF; states 4 to 7 are the restricted second
bytes after E0, ED, F0 and F4. -/
def utf8Step (st : Nat) (b : UInt8) : Option Nat :=
  let n := b.toNat
  match st with
  | 0 =>
    if n < 0x80 then some 0
    else if n < 0xC2 then none
    else if n < 0xE0 then some 1
    else if n = 0xE0 then some 4
    else if n < 0xED then some 2
    else if n = 0xED then some 5
    else if n < 0xF0 then some 2
    else if n = 0xF0 then some 6
    else if n < 0xF4 then some 3
    else if n = 0xF4 then some 7
    else none
  | 1 => if 0x80 ≤ n ∧ n < 0xC0 then some 0 else none
  | 2 => if 0x80 ≤ n ∧ n < 0xC0 then some 1 else none
  | 3 => if 0x80 ≤ n ∧ n < 0xC0 then some 2 else none
  | 4 => if 0xA0 ≤ n ∧ n < 0xC0 then some 1 else none
  | 5 => if 0x80 ≤ n ∧ n < 0xA0 then some 1 else none
  | 6 => if 0x90 ≤ n ∧ n < 0xC0 then some 2 else none
  | 7 => if 0x80 ≤ n ∧ n < 0x90 then some 2 else none
  | _ => none

def utf8Run : Nat → List UInt8 → Bool
  | st, [] => st = 0
  | st, b :: rest =>
    match utf8Step st b with
    | none => false
    | some st2 => utf8Run st2 rest

/-- std::str::from_utf8 succeeds exactly on valid UTF-8. -/
def utf8Valid (l : List UInt8) : Bool := utf8Run 0 l

/-- nom map_res(take(n), std::str::from_utf8): take n bytes, require valid
UTF-8; map_res reports its failure at the input it was handed. -/
def takeUtf8 (n : Nat) (input : Bytes) : PResult RString :=
  match takeP n input with
  | .error e => .error e
  | .ok (rest, buffer) =>
    if utf8Valid buffer then .ok (rest, buffer) else .error ⟨.mapRes, input⟩

/-- nom multi::count (see header comment on error propagation). -/
def countP {α : Type} (p : Bytes → PResult α) : Nat → Bytes → PResult (List α)
  | 0, input => .ok (input, [])
  | n + 1, input =>
    match p input with
    | .error e => .error e
    | .ok (rest, a) =>
      match countP p n rest with
      | .error e => .error e
      | .ok (rest2, xs) => .ok (rest2, a :: xs)

/- ---------------- data model (types.rs) ---------------- -/

/-- HashMap<String, String> modelled by its observable content. -/
abbrev Dict := List (RString × RString)

/-- HashMap::insert: replace the value when the key is present, keeping the
stored key, append otherwise. -/
def dictInsert (m : Dict) (k v : RString) : Dict :=
  match m with
  | [] => [(k, v)]
  | (k0, v0) :: rest => if k0 = k then (k0, v) :: rest else (k0, v0) :: dictInsert rest k v

/-- HashMap::from_iter: fold insert over the pairs; later duplicates win. -/
def dictFromIter (pairs : List (RString × RString)) : Dict :=
  pairs.foldl (fun m kv => dictInsert m kv.1 kv.2) []

/-- HashMap::get on the modelled content. -/
def dictLookup (m : Dict) (k : RString) : Option RString :=
  match m with
  | [] => none
  | (k0, v0) :: rest => if k0 = k then some v0 else dictLookup rest k

/-- The value carried by the last pair of the given key in a pair sequence. -/
def lastLookup (pairs : List (RString × RString)) (k : RString) : Option RString :=
  pairs.foldl (fun acc p => if p.1 = k then some p.2 else acc) none

structure Color where
  name : Option RString
  r : UInt8
  g : UInt8
  b : UInt8
  a : UInt8
deriving DecidableEq, Repr

/-- Color::from_u32 of types.rs. -/
def Color.from_u32 (val : Nat) : Color :=
  { name := none
    r := UInt8.ofNat ((val &&& 0xFF000000) >>> 24)
    g := UInt8.ofNat ((val &&& 0x00FF0000) >>> 16)
    b := UInt8.ofNat ((val &&& 0x0000FF00) >>> 8)
    a := UInt8.ofNat ((val &&& 0x000000FF) >>> 0) }

structure Size where
  x : Nat
  y : Nat
  z : Nat
deriving DecidableEq, Repr

structure Voxel where
  x : UInt8
  y : UInt8
  z : UInt8
  i : UInt8
deriving DecidableEq, Repr

structure Pack where
  modelCount : Nat
deriving DecidableEq, Repr

structure Model where
  id : Nat
  size : Size
  voxels : List Voxel
deriving DecidableEq, Repr

structure MaterialV1 where
  id : Nat
  kind : Nat
  weight : F32
  plastic : Option F32
  roughness : Option F32
  specular : Option F32
  ior : Option F32
  attenuation : Option F32
  power : Option F32
  glow : Option F32
  is_total_power : Bool
deriving DecidableEq, Repr

structure MaterialV2 where
  id : Nat
  properties : Dict
deriving DecidableEq, Repr

inductive Material where
  | V1 (m : MaterialV1)
  | V2 (m : MaterialV2)
deriving DecidableEq, Repr

structure Camera where
  id : Nat
  attributes : Dict
deriving DecidableEq, Repr

structure TransformNode where
  id : Nat
  attrib : Dict
  child_node_id : Nat
  reserved_id : Int
  layer_id : Nat
  frames : List Dict
deriving DecidableEq, Repr

structure GroupNode where
  id : Nat
  attrib : Dict
  children : List Nat
deriving DecidableEq, Repr

structure ShapeNode where
  id : Nat
  attrib : Dict
  models : List (Nat × Dict)
deriving DecidableEq, Repr

structure Layer where
  id : Nat
  attributes : Dict
  reserved : Int
deriving DecidableEq, Repr

inductive SceneNode where
  | transform (n : TransformNode)
  | group (n : GroupNode)
  | shape (n : ShapeNode)
deriving DecidableEq, Repr

structure VoxFile where
  version : Nat
  models : List Model
  palette : List Color
  materials : List Material
  scenegraph : List SceneNode
deriving DecidableEq, Repr

/-- The 256 u32 literals of DEFAULT_PALETTE in types.rs, in order. -/
def DEFAULT_PALETTE_RAW : List Nat :=
  [0x00000000, 0xffffffff, 0xffccffff, 0xff99ffff, 0xff66ffff, 0xff33ffff, 0xff00ffff, 0xffffccff
   , 0xffccccff, 0xff99ccff, 0xff66ccff, 0xff33ccff, 0xff00ccff, 0xffff99ff, 0xffcc99ff, 0xff9999ff
   , 0xff6699ff, 0xff3399ff, 0xff0099ff, 0xffff66ff, 0xffcc66ff, 0xff9966ff, 0xff6666ff, 0xff3366ff
   , 0xff0066ff, 0xffff33ff, 0xffcc33ff, 0xff9933ff, 0xff6633ff, 0xff3333ff, 0xff0033ff, 0xffff00ff
   , 0xffcc00ff, 0xff9900ff, 0xff6600ff, 0xff3300ff, 0xff0000ff, 0xffffffcc, 0xffccffcc, 0xff99ffcc
   , 0xff66ffcc, 0xff33ffcc, 0xff00ffcc, 0xffffcccc, 0xffcccccc, 0xff99cccc, 0xff66cccc, 0xff33cccc
   , 0xff00cccc, 0xffff99cc, 0xffcc99cc, 0xff9999cc, 0xff6699cc, 0xff3399cc, 0xff0099cc, 0xffff66cc
   , 0xffcc66cc, 0xff9966cc, 0xff6666cc, 0xff3366cc, 0xff0066cc, 0xffff33cc, 0xffcc33cc, 0xff9933cc
   , 0xff6633cc, 0xff3333cc, 0xff0033cc, 0xffff00cc, 0xffcc00cc, 0xff9900cc, 0xff6600cc, 0xff3300cc
   , 0xff0000cc, 0xffffff99, 0xffccff99, 0xff99ff99, 0xff66ff99, 0xff33ff99, 0xff00ff99, 0xffffcc99
   , 0xffcccc99, 0xff99cc99, 0xff66cc99, 0xff33cc99, 0xff00cc99, 0xffff9999, 0xffcc9999, 0xff999999
   , 0xff669999, 0xff339999, 0xff009999, 0xffff6699, 0xffcc6699, 0xff996699, 0xff666699, 0xff336699
   , 0xff006699, 0xffff3399, 0xffcc3399, 0xff993399, 0xff663399, 0xff333399, 0xff003399, 0xffff0099
   , 0xffcc0099, 0xff990099, 0xff660099, 0xff330099, 0xff000099, 0xffffff66, 0xffccff66, 0xff99ff66
   , 0xff66ff66, 0xff33ff66, 0xff00ff66, 0xffffcc66, 0xffcccc66, 0xff99cc66, 0xff66cc66, 0xff33cc66
   , 0xff00cc66, 0xffff9966, 0xffcc9966, 0xff999966, 0xff669966, 0xff339966, 0xff009966, 0xffff6666
   , 0xffcc6666, 0xff996666, 0xff666666, 0xff336666, 0xff006666, 0xffff3366, 0xffcc3366, 0xff993366
   , 0xff663366, 0xff333366, 0xff003366, 0xffff0066, 0xffcc0066, 0xff990066, 0xff660066, 0xff330066
   , 0xff000066, 0xffffff33, 0xffccff33, 0xff99ff33, 0xff66ff33, 0xff33ff33, 0xff00ff33, 0xffffcc33
   , 0xffcccc33, 0xff99cc33, 0xff66cc33, 0xff33cc33, 0xff00cc33, 0xffff9933, 0xffcc9933, 0xff999933
   , 0xff669933, 0xff339933, 0xff009933, 0xffff6633, 0xffcc6633, 0xff996633, 0xff666633, 0xff336633
   , 0xff006633, 0xffff3333, 0xffcc3333, 0xff993333, 0xff663333, 0xff333333, 0xff003333, 0xffff0033
   , 0xffcc0033, 0xff990033, 0xff660033, 0xff330033, 0xff000033, 0xffffff00, 0xffccff00, 0xff99ff00
   , 0xff66ff00, 0xff33ff00, 0xff00ff00, 0xffffcc00, 0xffcccc00, 0xff99cc00, 0xff66cc00, 0xff33cc00
   , 0xff00cc00, 0xffff9900, 0xffcc9900, 0xff999900, 0xff669900, 0xff339900, 0xff009900, 0xffff6600
   , 0xffcc6600, 0xff996600, 0xff666600, 0xff336600, 0xff006600, 0xffff3300, 0xffcc3300, 0xff993300
   , 0xff663300, 0xff333300, 0xff003300, 0xffff0000, 0xffcc0000, 0xff990000, 0xff660000, 0xff330000
   , 0xff0000ee, 0xff0000dd, 0xff0000bb, 0xff0000aa, 0xff000088, 0xff000077, 0xff000055, 0xff000044
   , 0xff000022, 0xff000011, 0xff00ee00, 0xff00dd00, 0xff00bb00, 0xff00aa00, 0xff008800, 0xff007700
   , 0xff005500, 0xff004400, 0xff002200, 0xff001100, 0xffee0000, 0xffdd0000, 0xffbb0000, 0xffaa0000
   , 0xff880000, 0xff770000, 0xff550000, 0xff440000, 0xff220000, 0xff110000, 0xffeeeeee, 0xffdddddd
   , 0xffbbbbbb, 0xffaaaaaa, 0xff888888, 0xff777777, 0xff555555, 0xff444444, 0xff222222, 0xff111111]

/-- DEFAULT_PALETTE of types.rs. -/
def DEFAULT_PALETTE : List Color := DEFAULT_PALETTE_RAW.map Color.from_u32

/-- VoxFile::default of types.rs. -/
def VoxFile.default : VoxFile :=
  { version := 150
    models := []
    palette := DEFAULT_PALETTE
    materials := []
    scenegraph := [] }

/- ---------------- chunk tree (parser.rs enum Chunk) ---------------- -/

inductive Chunk where
  | MAIN (children : List Chunk)
  | SIZE (size : Size)
  | XYZI (voxels : List Voxel)
  | PACK (pack : Pack)
  | RGBA (colors : List Color)
  | MATT (material : MaterialV1)
  | MATL (material : MaterialV2)
  | rOBJ (obj : Dict)
  | rCAM (cam : Camera)
  | IMAP (imap : List UInt8)
  | NOTE (note : List RString)
  | nTRN (node : TransformNode)
  | nGRP (node : GroupNode)
  | nSHP (node : ShapeNode)
  | LAYR (layer : Layer)
  | Unknown (kind : RString) (contents : Bytes) (children : List Chunk)

/- ---------------- semantic decoders (parser.rs) ---------------- -/

def MAGIC_NUMBER : Bytes := [0x56, 0x4F, 0x58, 0x20]

def tMAIN : Bytes := [0x4D, 0x41, 0x49, 0x4E]
def tPACK : Bytes := [0x50, 0x41, 0x43, 0x4B]
def tSIZE : Bytes := [0x53, 0x49, 0x5A, 0x45]
def tXYZI : Bytes := [0x58, 0x59, 0x5A, 0x49]
def tRGBA : Bytes := [0x52, 0x47, 0x42, 0x41]
def tMATT : Bytes := [0x4D, 0x41, 0x54, 0x54]
def tMATL : Bytes := [0x4D, 0x41, 0x54, 0x4C]
def trOBJ : Bytes := [0x72, 0x4F, 0x42, 0x4A]
def trCAM : Bytes := [0x72, 0x43, 0x41, 0x4D]
def tIMAP : Bytes := [0x49, 0x4D, 0x41, 0x50]
def tNOTE : Bytes := [0x4E, 0x4F, 0x54, 0x45]
def tnTRN : Bytes := [0x6E, 0x54, 0x52, 0x4E]
def tnGRP : Bytes := [0x6E, 0x47, 0x52, 0x50]
def tnSHP : Bytes := [0x6E, 0x53, 0x48, 0x50]
def tLAYR : Bytes := [0x4C, 0x41, 0x59, 0x52]

def parse_PACK (input : Bytes) : PResult Pack :=
  match leU32 input with
  | .error e => .error e
  | .ok (input, model_count) => .ok (input, ⟨model_count⟩)

def parse_SIZE (input : Bytes) : PResult Size :=
  match leU32 input with
  | .error e => .error e
  | .ok (input, x) =>
  match leU32 input with
  | .error e => .error e
  | .ok (input, y) =>
  match leU32 input with
  | .error e => .error e
  | .ok (input, z) => .ok (input, ⟨x, y, z⟩)

/-- The per voxel closure of parse_XYZI: four le_u8 reads. -/
def parse_voxel (input : Bytes) : PResult Voxel :=
  match leU8 input with
  | .error e => .error e
  | .ok (input, x) =>
  match leU8 input with
  | .error e => .error e
  | .ok (input, y) =>
  match leU8 input with
  | .error e => .error e
  | .ok (input, z) =>
  match leU8 input with
  | .error e => .error e
  | .ok (input, i) => .ok (input, ⟨x, y, z, i⟩)

def parse_XYZI (input : Bytes) : PResult (List Voxel) :=
  match leU32 input with
  | .error e => .error e
  | .ok (input, voxel_count) => countP parse_voxel voxel_count input

/-- The per color closure of parse_RGBA: four le_u8 reads. -/
def parse_color (input : Bytes) : PResult Color :=
  match leU8 input with
  | .error e => .error e
  | .ok (input, r) =>
  match leU8 input with
  | .error e => .error e
  | .ok (input, g) =>
  match leU8 input with
  | .error e => .error e
  | .ok (input, b) =>
  match leU8 input with
  | .error e => .error e
  | .ok (input, a) => .ok (input, ⟨none, r, g, b, a⟩)

def parse_RGBA (input : Bytes) : PResult (List Color) :=
  countP parse_color 256 input

/-- The pattern repeated seven times in parse_MATT: when the property bit is
set, read a le_f32 and wrap it in Some, otherwise consume nothing and
produce None. -/
def gatedF32 (present : Bool) (input : Bytes) : PResult (Option F32) :=
  if present then
    match leF32 input with
    | .error e => .error e
    | .ok (rest, v) => .ok (rest, some v)
  else .ok (input, none)

def parse_MATT (input : Bytes) : PResult MaterialV1 :=
  match leU32 input with
  | .error e => .error e
  | .ok (input, id) =>
  match leU32 input with
  | .error e => .error e
  | .ok (input, kind) =>
  match leF32 input with
  | .error e => .error e
  | .ok (input, weight) =>
  match leU32 input with
  | .error e => .error e
  | .ok (input, property_bits) =>
  match gatedF32 (property_bits &&& 0x01 != 0) input with
  | .error e => .error e
  | .ok (input, plastic) =>
  match gatedF32 (property_bits &&& 0x02 != 0) input with
  | .error e => .error e
  | .ok (input, roughness) =>
  match gatedF32 (property_bits &&& 0x04 != 0) input with
  | .error e => .error e
  | .ok (input, specular) =>
  match gatedF32 (property_bits &&& 0x08 != 0) input with
  | .error e => .error e
  | .ok (input, ior) =>
  match gatedF32 (property_bits &&& 0x10 != 0) input with
  | .error e => .error e
  | .ok (input, attenuation) =>
  match gatedF32 (property_bits &&& 0x20 != 0) input with
  | .error e => .error e
  | .ok (input, power) =>
  match gatedF32 (property_bits &&& 0x40 != 0) input with
  | .error e => .error e
  | .ok (input, glow) =>
    let is_total_power := property_bits &&& 0x80 != 0
    .ok (input, ⟨id, kind, weight, plastic, roughness, specular, ior,
                 attenuation, power, glow, is_total_power⟩)

def parse_STRING (input : Bytes) : PResult RString :=
  match leU32 input with
  | .error e => .error e
  | .ok (input, bytes) => takeUtf8 bytes input

/-- The tuple((parse_STRING, parse_STRING)) entry reader of parse_DICT. -/
def parse_dictPair (input : Bytes) : PResult (RString × RString) :=
  match parse_STRING input with
  | .error e => .error e
  | .ok (input, k) =>
  match parse_STRING input with
  | .error e => .error e
  | .ok (input, v) => .ok (input, (k, v))

def parse_DICT (input : Bytes) : PResult Dict :=
  match leU32 input with
  | .error e => .error e
  | .ok (input, entry_count) =>
  match countP parse_dictPair entry_count input with
  | .error e => .error e
  | .ok (input, entries) => .ok (input, dictFromIter entries)

def parse_MATL (input : Bytes) : PResult MaterialV2 :=
  match leU32 input with
  | .error e => .error e
  | .ok (input, id) =>
  match parse_DICT input with
  | .error e => .error e
  | .ok (input, properties) => .ok (input, ⟨id, properties⟩)

def parse_rOBJ (input : Bytes) : PResult Dict := parse_DICT input

def parse_rCAM (input : Bytes) : PResult Camera :=
  match leU32 input with
  | .error e => .error e
  | .ok (input, id) =>
  match parse_DICT input with
  | .error e => .error e
  | .ok (input, attributes) => .ok (input, ⟨id, attributes⟩)

def parse_IMAP (input : Bytes) : PResult (List UInt8) :=
  countP leU8 256 input

def parse_NOTE (input : Bytes) : PResult (List RString) :=
  match leU32 input with
  | .error e => .error e
  | .ok (input, string_count) => countP parse_STRING string_count input

def parse_nTRN (input : Bytes) : PResult TransformNode :=
  match leU32 input with
  | .error e => .error e
  | .ok (input, id) =>
  match parse_DICT input with
  | .error e => .error e
  | .ok (input, attrib) =>
  match leU32 input with
  | .error e => .error e
  | .ok (input, child_node_id) =>
  match leI32 input with
  | .error e => .error e
  | .ok (input, reserved_id) =>
  match leU32 input with
  | .error e => .error e
  | .ok (input, layer_id) =>
  match leU32 input with
  | .error e => .error e
  | .ok (input, frame_count) =>
  match countP parse_DICT frame_count input with
  | .error e => .error e
  | .ok (input, frames) =>
    .ok (input, ⟨id, attrib, child_node_id, reserved_id, layer_id, frames⟩)

def parse_nGRP (input : Bytes) : PResult GroupNode :=
  match leU32 input with
  | .error e => .error e
  | .ok (input, id) =>
  match parse_DICT input with
  | .error e => .error e
  | .ok (input, attrib) =>
  match leU32 input with
  | .error e => .error e
  | .ok (input, child_node_count) =>
  match countP leU32 child_node_count input with
  | .error e => .error e
  | .ok (input, children) => .ok (input, ⟨id, attrib, children⟩)

/-- The (model id, attribute dict) reader of parse_nSHP. -/
def parse_shapeModel (input : Bytes) : PResult (Nat × Dict) :=
  match leU32 input with
  | .error e => .error e
  | .ok (input, id) =>
  match parse_DICT input with
  | .error e => .error e
  | .ok (input, attrib) => .ok (input, (id, attrib))

def parse_nSHP (input : Bytes) : PResult ShapeNode :=
  match leU32 input with
  | .error e => .error e
  | .ok (input, id) =>
  match parse_DICT input with
  | .error e => .error e
  | .ok (input, attrib) =>
  match leU32 input with
  | .error e => .error e
  | .ok (input, model_count) =>
  match countP parse_shapeModel model_count input with
  | .error e => .error e
  | .ok (input, models) => .ok (input, ⟨id, attrib, models⟩)

def parse_LAYR (input : Bytes) : PResult Layer :=
  match leU32 input with
  | .error e => .error e
  | .ok (input, id) =>
  match parse_DICT input with
  | .error e => .error e
  | .ok (input, attrib) =>
  match leI32 input with
  | .error e => .error e
  | .ok (input, reserved) => .ok (input, ⟨id, attrib, reserved⟩)

/- ---------------- chunk frame reader (parse_chunk) ---------------- -/

/-- The tag dispatch of parse_chunk (parser.rs lines 161..182): each
recognized tag hands the content slice to its semantic decoder, keeps only
the decoded value (the .1 of the source) and propagates a decoder failure
outward (the question mark of the source); every other tag keeps the raw
content and the already parsed children. -/
def chunkDispatch (kind : RString) (chunk_content : Bytes) (children : List Chunk) :
    Except NomError Chunk :=
  if kind = tMAIN then .ok (.MAIN children)
  else if kind = tPACK then
    match parse_PACK chunk_content with
    | .error e => .error e
    | .ok p => .ok (.PACK p.2)
  else if kind = tSIZE then
    match parse_SIZE chunk_content with
    | .error e => .error e
    | .ok p => .ok (.SIZE p.2)
  else if kind = tXYZI then
    match parse_XYZI chunk_content with
    | .error e => .error e
    | .ok p => .ok (.XYZI p.2)
  else if kind = tRGBA then
    match parse_RGBA chunk_content with
    | .error e => .error e
    | .ok p => .ok (.RGBA p.2)
  else if kind = tMATT then
    match parse_MATT chunk_content with
    | .error e => .error e
    | .ok p => .ok (.MATT p.2)
  else if kind = tMATL then
    match parse_MATL chunk_content with
    | .error e => .error e
    | .ok p => .ok (.MATL p.2)
  else if kind = trOBJ then
    match parse_rOBJ chunk_content with
    | .error e => .error e
    | .ok p => .ok (.rOBJ p.2)
  else if kind = trCAM then
    match parse_rCAM chunk_content with
    | .error e => .error e
    | .ok p => .ok (.rCAM p.2)
  else if kind = tIMAP then
    match parse_IMAP chunk_content with
    | .error e => .error e
    | .ok p => .ok (.IMAP p.2)
  else if kind = tNOTE then
    match parse_NOTE chunk_content with
    | .error e => .error e
    | .ok p => .ok (.NOTE p.2)
  else if kind = tnTRN then
    match parse_nTRN chunk_content with
    | .error e => .error e
    | .ok p => .ok (.nTRN p.2)
  else if kind = tnGRP then
    match parse_nGRP chunk_content with
    | .error e => .error e
    | .ok p => .ok (.nGRP p.2)
  else if kind = tnSHP then
    match parse_nSHP chunk_content with
    | .error e => .error e
    | .ok p => .ok (.nSHP p.2)
  else if kind = tLAYR then
    match parse_LAYR chunk_content with
    | .error e => .error e
    | .ok p => .ok (.LAYR p.2)
  else .ok (.Unknown kind chunk_content children)

/-- Body of parse_chunk, parameterised by the child sequence reader
(many0(parse_chunk) on the sliced children range).  Mirrors parser.rs
lines 145..183: header, content slice, children slice, recursive children
(whose leftover bytes the source discards with .1), then the tag dispatch. -/
def parse_chunkBody (m0 : Bytes → PResult (List Chunk)) (input : Bytes) : PResult Chunk :=
  match takeUtf8 4 input with
  | .error e => .error e
  | .ok (input1, kind) =>
  match leU32 input1 with
  | .error e => .error e
  | .ok (input2, content_size) =>
  match leU32 input2 with
  | .error e => .error e
  | .ok (input3, children_size) =>
  match takeP content_size input3 with
  | .error e => .error e
  | .ok (input4, chunk_content) =>
  match takeP children_size input4 with
  | .error e => .error e
  | .ok (input5, child_content) =>
  match (if 0 < children_size then
           match m0 child_content with
           | .error e => .error e
           | .ok (_, cs) => .ok cs
         else (.ok [] : Except NomError (List Chunk))) with
  | .error e => .error e
  | .ok children =>
  match chunkDispatch kind chunk_content children with
  | .error e => .error e
  | .ok c => .ok (input5, c)

/-- Body of many0(parse_chunk): apply the chunk parser until it fails,
return the parsed prefix and the unconsumed leftover.  The guard mirrors
the Many0 check of nom against a non consuming inner parser; a successful
parse_chunk always consumes at least 12 bytes, so a successful equal
length remainder can only be the input itself and the guard is exact. -/
def many0Body (pc : Bytes → PResult Chunk) (m0 : Bytes → PResult (List Chunk))
    (input : Bytes) : PResult (List Chunk) :=
  match pc input with
  | .error _ => .ok (input, [])
  | .ok (rest, c) =>
    if rest.length < input.length then
      match m0 rest with
      | .error e => .error e
      | .ok (rest2, cs) => .ok (rest2, c :: cs)
    else .error ⟨.many0, input⟩

/-- Fuelled interpretation of the mutual recursion between parse_chunk and
many0(parse_chunk).  Structural recursion on the fuel keeps everything
kernel computable; fuel never runs out for fuel above the input length. -/
def chunkFuel : Nat → ((Bytes → PResult Chunk) × (Bytes → PResult (List Chunk)))
  | 0 => (fun input => .error ⟨.many0, input⟩, fun input => .error ⟨.many0, input⟩)
  | fuel + 1 =>
    (fun input => parse_chunkBody (chunkFuel fuel).2 input,
     fun input => many0Body (chunkFuel fuel).1 (chunkFuel fuel).2 input)

def parse_chunkF (fuel : Nat) (input : Bytes) : PResult Chunk :=
  (chunkFuel fuel).1 input

def many0ChunksF (fuel : Nat) (input : Bytes) : PResult (List Chunk) :=
  (chunkFuel fuel).2 input

/-- parse_chunk of parser.rs. -/
def parse_chunk (input : Bytes) : PResult Chunk :=
  parse_chunkF (input.length + 1) input

/- ---------------- file assembler (parse_file) ---------------- -/

/-- The mutable loop state of parse_file: the file being built, the next
model identifier and the pending size slot. -/
structure AsmState where
  file : VoxFile
  model_id : Nat
  model_size : Option Size
deriving DecidableEq, Repr

/-- One iteration of the child loop of parse_file (parser.rs lines 99..137).
The RGBA arm models colors.try_into().unwrap(): the conversion to a
[Color; 256] array panics when the vector length differs from 256, but
parse_RGBA only ever yields exactly 256 colors (parse_RGBA_ok below), so
inside parse_file the conversion is the identity on the color list. -/
def processChild (st : AsmState) (child : Chunk) : AsmState :=
  match child with
  | .MAIN _ => st
  | .SIZE size => { st with model_size := some size }
  | .XYZI voxels =>
    match st.model_size with
    | some size =>
      { st with
        file := { st.file with
                  models := st.file.models ++ [⟨st.model_id, size, voxels⟩] }
        model_id := st.model_id + 1
        model_size := none }
    | none => st
  | .PACK _ => st
  | .RGBA colors => { st with file := { st.file with palette := colors } }
  | .MATT m => { st with file := { st.file with materials := st.file.materials ++ [.V1 m] } }
  | .MATL m => { st with file := { st.file with materials := st.file.materials ++ [.V2 m] } }
  | .rOBJ _ => st
  | .rCAM _ => st
  | .IMAP _ => st
  | .NOTE _ => st
  | .nTRN _ => st
  | .nGRP _ => st
  | .nSHP _ => st
  | .LAYR _ => st
  | .Unknown _ _ _ => st

/-- parse_file of parser.rs: magic, version (read and dropped), one chunk;
when the chunk is MAIN fold its children, otherwise a plain nom error of
kind Eof at the remaining input (line 140). -/
def parse_file (input : Bytes) : PResult VoxFile :=
  match tagP MAGIC_NUMBER input with
  | .error e => .error e
  | .ok (input, _) =>
  match leU32 input with
  | .error e => .error e
  | .ok (input, _version) =>
  match parse_chunk input with
  | .error e => .error e
  | .ok (input, main) =>
  match main with
  | .MAIN children =>
    .ok (input, (children.foldl processChild ⟨VoxFile.default, 0, none⟩).file)
  | _ => .error ⟨.eof, input⟩

/- ---------------- helper predicates and concrete inputs ---------------- -/

/-- Number of optional float fields a MATT bitmask switches on (bits 0..6). -/
def gateCount (n : Nat) : Nat :=
  (n.testBit 0).toNat + (n.testBit 1).toNat + (n.testBit 2).toNat + (n.testBit 3).toNat +
  (n.testBit 4).toNat + (n.testBit 5).toNat + (n.testBit 6).toNat

/-- An RGBA chunk node always carries exactly 256 colors. -/
def palOKchild (c : Chunk) : Prop :=
  match c with
  | .RGBA colors => colors.length = 256
  | _ => True

/-- An unrecognized four byte tag (ZZZZ), valid UTF-8. -/
def tZZZZ : Bytes := [0x5A, 0x5A, 0x5A, 0x5A]

/-- An unknown tag frame with empty content and an arbitrary children range. -/
def frameZ (cb : Bytes) : Bytes := tZZZZ ++ enc32 0 ++ enc32 cb.length ++ cb

/-- Unknown tag ABCD, one content byte, no children. -/
def cexC1bytes : Bytes := [0x41, 0x42, 0x43, 0x44] ++ enc32 1 ++ enc32 0 ++ [0xAA]

/-- Unknown tag AAAA, no content, a one byte children range holding no
well formed child frame: one trailing leftover byte. -/
def cexC2a : Bytes := [0x41, 0x41, 0x41, 0x41] ++ enc32 0 ++ enc32 1 ++ [0x00]

/-- Unknown tag BBBB, no content, a twelve byte children range holding one
child header that claims 100 content bytes, more than remain. -/
def cexC2b : Bytes :=
  [0x42, 0x42, 0x42, 0x42] ++ enc32 0 ++ enc32 12 ++ (tSIZE ++ enc32 100 ++ enc32 0)

/-- A file whose first top level chunk is a well formed SIZE, not MAIN. -/
def c3WrongRoot : Bytes :=
  MAGIC_NUMBER ++ enc32 150 ++
  (tSIZE ++ enc32 12 ++ enc32 0 ++ (enc32 1 ++ enc32 2 ++ enc32 3))

/-- A file truncated right after magic and version. -/
def c3Truncated : Bytes := MAGIC_NUMBER ++ enc32 150

/-- MATT payload: id 7, kind 1, weight pattern 1065353216, bitmask 0x05,
then two float patterns (bits 0 and 2 set). -/
def mattBytes05 : Bytes :=
  enc32 7 ++ enc32 1 ++ enc32 1065353216 ++ enc32 5 ++ enc32 1036831949 ++ enc32 1008981770

/-- Dictionary payload with two entries sharing the key "a" (0x61):
("a", "1") then ("a", "2"). -/
def dictDupBytes : Bytes :=
  enc32 2 ++ (enc32 1 ++ [0x61]) ++ (enc32 1 ++ [0x31]) ++ (enc32 1 ++ [0x61]) ++ (enc32 1 ++ [0x32])

/-- Dictionary payload with two entries ("a", "1") and ("b", "2"). -/
def dictTwoBytes : Bytes :=
  enc32 2 ++ (enc32 1 ++ [0x61]) ++ (enc32 1 ++ [0x31]) ++ (enc32 1 ++ [0x62]) ++ (enc32 1 ++ [0x32])

/-- XYZI payload with two voxel records. -/
def xyziTwoBytes : Bytes := enc32 2 ++ [1, 2, 3, 4] ++ [5, 6, 7, 8]

/-- A complete demo file: magic, version word 7, MAIN with a SIZE (2,3,4)
child followed by an XYZI child with the single voxel (1,1,1,5). -/
def demoBytes : Bytes :=
  MAGIC_NUMBER ++ enc32 7 ++
  (tMAIN ++ enc32 0 ++ enc32 44 ++
    (tSIZE ++ enc32 12 ++ enc32 0 ++ (enc32 2 ++ enc32 3 ++ enc32 4)) ++
    (tXYZI ++ enc32 8 ++ enc32 0 ++ (enc32 1 ++ [1, 1, 1, 5])))

/-- The document demoBytes decodes to. -/
def demoFile : VoxFile :=
  { version := 150
    models := [⟨0, ⟨2, 3, 4⟩, [⟨1, 1, 1, 5⟩]⟩]
    palette := DEFAULT_PALETTE
    materials := []
    scenegraph := [] }

/- ==================== supporting lemmas ==================== -/

theorem leU8_ok {input rest : Bytes} {b : UInt8} (h : leU8 input = .ok (rest, b)) :
    input = b :: rest := by
  cases input <;> simp_all [leU8]

theorem leU32_ok {input rest : Bytes} {n : Nat} (h : leU32 input = .ok (rest, n)) :
    4 ≤ input.length ∧ rest = input.drop 4 ∧ n = u32LE input := by
  rcases input with _ | ⟨b0, _ | ⟨b1, _ | ⟨b2, _ | ⟨b3, t⟩⟩⟩⟩ <;>
    simp_all [leU32, u32LE]

theorem takeP_ok {n : Nat} {input rest buf : Bytes} (h : takeP n input = .ok (rest, buf)) :
    n ≤ input.length ∧ rest = input.drop n ∧ buf = input.take n := by
  unfold takeP at h
  split at h
  · simp at h
  · next hlt => simp at h; exact ⟨by omega, h.1.symm, h.2.symm⟩

theorem takeUtf8_ok {n : Nat} {input rest : Bytes} {s : RString}
    (h : takeUtf8 n input = .ok (rest, s)) :
    n ≤ input.length ∧ rest = input.drop n ∧ s = input.take n ∧ utf8Valid s = true := by
  unfold takeUtf8 at h
  cases htp : takeP n input with
  | error e => rw [htp] at h; simp at h
  | ok p =>
    obtain ⟨r0, buf⟩ := p
    rw [htp] at h
    simp only [] at h
    split at h
    · next hv =>
      simp at h
      obtain ⟨hble, hbd, hbt⟩ := takeP_ok htp
      exact ⟨hble, h.1 ▸ hbd, h.2 ▸ hbt, h.2 ▸ hv⟩
    · simp at h

theorem parse_chunkBody_ok {m0 : Bytes → PResult (List Chunk)} {input rest : Bytes} {c : Chunk}
    (h : parse_chunkBody m0 input = .ok (rest, c)) :
    12 + u32LE (input.drop 4) + u32LE (input.drop 8) ≤ input.length ∧
    rest = input.drop (12 + u32LE (input.drop 4) + u32LE (input.drop 8)) := by
  unfold parse_chunkBody at h
  cases h1 : takeUtf8 4 input with
  | error e => rw [h1] at h; simp at h
  | ok p1 =>
  obtain ⟨input1, kind⟩ := p1
  rw [h1] at h
  simp only [] at h
  cases h2 : leU32 input1 with
  | error e => rw [h2] at h; simp at h
  | ok p2 =>
  obtain ⟨input2, content_size⟩ := p2
  rw [h2] at h
  simp only [] at h
  cases h3 : leU32 input2 with
  | error e => rw [h3] at h; simp at h
  | ok p3 =>
  obtain ⟨input3, children_size⟩ := p3
  rw [h3] at h
  simp only [] at h
  cases h4 : takeP content_size input3 with
  | error e => rw [h4] at h; simp at h
  | ok p4 =>
  obtain ⟨input4, chunk_content⟩ := p4
  rw [h4] at h
  simp only [] at h
  cases h5 : takeP children_size input4 with
  | error e => rw [h5] at h; simp at h
  | ok p5 =>
  obtain ⟨input5, child_content⟩ := p5
  rw [h5] at h
  simp only [] at h
  obtain ⟨hle1, hr1, -, -⟩ := takeUtf8_ok h1
  obtain ⟨hle2, hr2, hn2⟩ := leU32_ok h2
  obtain ⟨hle3, hr3, hn3⟩ := leU32_ok h3
  obtain ⟨hle4, hr4, -⟩ := takeP_ok h4
  obtain ⟨hle5, hr5, -⟩ := takeP_ok h5
  have hd8 : input2 = input.drop 8 := by
    rw [hr2, hr1, List.drop_drop]
  have hd12 : input3 = input.drop 12 := by
    rw [hr3, hd8, List.drop_drop]
  have hcs : content_size = u32LE (input.drop 4) := by rw [hn2, hr1]
  have hcc : children_size = u32LE (input.drop 8) := by rw [hn3, hd8]
  have hd5 : input5 = input.drop (12 + u32LE (input.drop 4) + u32LE (input.drop 8)) := by
    rw [hr5, hr4, hd12, List.drop_drop, List.drop_drop, ← hcs, ← hcc]
    congr 1
    omega
  have hlen : 12 + u32LE (input.drop 4) + u32LE (input.drop 8) ≤ input.length := by
    have e1 : input1.length = input.length - 4 := by rw [hr1, List.length_drop]
    have e2 : input2.length = input.length - 8 := by rw [hd8, List.length_drop]
    have e3 : input3.length = input.length - 12 := by rw [hd12, List.length_drop]
    have e4 : input4.length = input3.length - content_size := by rw [hr4, List.length_drop]
    omega
  refine ⟨hlen, ?_⟩
  split at h
  · simp at h
  · split at h
    · simp at h
    · simp at h
      rw [← h.1, hd5]

theorem parse_chunkF_ok {fuel : Nat} {input rest : Bytes} {c : Chunk}
    (h : parse_chunkF fuel input = .ok (rest, c)) :
    12 + u32LE (input.drop 4) + u32LE (input.drop 8) ≤ input.length ∧
    rest = input.drop (12 + u32LE (input.drop 4) + u32LE (input.drop 8)) := by
  cases fuel with
  | zero => simp [parse_chunkF, chunkFuel] at h
  | succ n =>
    have h2 : parse_chunkBody (many0ChunksF n) input = .ok (rest, c) := h
    exact parse_chunkBody_ok h2

/- ==================== claims ==================== -/

/-- C1: for every chunk frame the reader parses successfully, recognized or
unknown tag alike, the bytes consumed equal 12 plus the declared content
length plus the declared children length, and the remaining bytes output is
the input past exactly that span. -/
theorem claim1_chunk_framing : ∀ (input rest : Bytes) (c : Chunk),
    parse_chunk input = .ok (rest, c) →
    input.length = rest.length + (12 + u32LE (input.drop 4) + u32LE (input.drop 8)) ∧
    rest = input.drop (12 + u32LE (input.drop 4) + u32LE (input.drop 8)) := by
  intro input rest c h
  obtain ⟨hb, hr⟩ := parse_chunkF_ok h
  constructor
  · rw [hr, List.length_drop]; omega
  · exact hr

/-- Witness for C1: the framing equation instantiated at the concrete
unknown tag frame cexC1bytes (header 12 bytes, content 1, children 0). -/
theorem claim1_chunk_framing_witness :
    cexC1bytes.length =
      ([] : Bytes).length + (12 + u32LE (cexC1bytes.drop 4) + u32LE (cexC1bytes.drop 8)) ∧
    ([] : Bytes) = cexC1bytes.drop (12 + u32LE (cexC1bytes.drop 4) + u32LE (cexC1bytes.drop 8)) :=
  claim1_chunk_framing cexC1bytes [] (.Unknown [0x41, 0x42, 0x43, 0x44] [0xAA] []) rfl

theorem uofNat_toNat (n : Nat) : (UInt8.ofNat n).toNat = n % 256 :=
  UInt8.toNat_ofNat n

theorem leU32_enc32 {n : Nat} (h : n < 4294967296) (rest : Bytes) :
    leU32 (enc32 n ++ rest) = .ok (rest, n) := by
  have e : leU32 (enc32 n ++ rest)
      = .ok (rest, u32FromBytes (UInt8.ofNat n) (UInt8.ofNat (n / 256))
              (UInt8.ofNat (n / 65536)) (UInt8.ofNat (n / 16777216))) := rfl
  rw [e]
  unfold u32FromBytes
  rw [uofNat_toNat, uofNat_toNat, uofNat_toNat, uofNat_toNat]
  congr 1
  congr 1
  omega

theorem parse_chunkF_consumes {fuel : Nat} {input rest : Bytes} {c : Chunk}
    (h : parse_chunkF fuel input = .ok (rest, c)) :
    rest.length + 12 ≤ input.length := by
  obtain ⟨hb, hr⟩ := parse_chunkF_ok h
  rw [hr, List.length_drop]
  omega

theorem many0ChunksF_total : ∀ (fuel : Nat) (input : Bytes), input.length < fuel →
    ∃ rest cs, many0ChunksF fuel input = .ok (rest, cs) := by
  intro fuel
  induction fuel with
  | zero => intro input h; omega
  | succ n ih =>
    intro input h
    have hm : many0ChunksF (n + 1) input
        = many0Body (parse_chunkF n) (many0ChunksF n) input := rfl
    rw [hm]
    unfold many0Body
    cases hp : parse_chunkF n input with
    | error e => exact ⟨input, [], rfl⟩
    | ok p =>
      obtain ⟨rest, c⟩ := p
      have hcons := parse_chunkF_consumes hp
      have hlt : rest.length < input.length := by omega
      obtain ⟨rest2, cs, hrec⟩ := ih rest (by omega)
      exact ⟨rest2, c :: cs, by simp [hlt, hrec]⟩

theorem takeUtf8_cons4 (a b c d : UInt8) (r : Bytes) (hv : utf8Valid [a, b, c, d] = true) :
    takeUtf8 4 ([a, b, c, d] ++ r) = .ok (r, [a, b, c, d]) := by
  unfold takeUtf8 takeP
  have hlen : ¬(([a, b, c, d] ++ r).length < 4) := by simp
  rw [if_neg hlen]
  simp [hv]

theorem chunkDispatch_unknownZ (children : List Chunk) :
    chunkDispatch ([0x5A, 0x5A, 0x5A, 0x5A] : Bytes) [] children
      = .ok (.Unknown [0x5A, 0x5A, 0x5A, 0x5A] [] children) := by
  unfold chunkDispatch
  rw [if_neg (by decide), if_neg (by decide), if_neg (by decide), if_neg (by decide),
      if_neg (by decide), if_neg (by decide), if_neg (by decide), if_neg (by decide),
      if_neg (by decide), if_neg (by decide), if_neg (by decide), if_neg (by decide),
      if_neg (by decide), if_neg (by decide), if_neg (by decide)]

/-- C2 counterexample: two chunks whose children byte range is NOT exactly
exhausted by well formed child frames still parse successfully, contrary to
the claim.  cexC2a has one trailing leftover byte holding no child frame at
all; cexC2b has a children range whose single child header claims 100
content bytes when none remain.  Both decode to a parsed chunk with the
leftover silently discarded, not to a structural parse failure. -/
theorem claim2_counterexample :
    parse_chunk cexC2a = .ok ([], .Unknown [0x41, 0x41, 0x41, 0x41] [] []) ∧
    parse_chunk cexC2b = .ok ([], .Unknown [0x42, 0x42, 0x42, 0x42] [] []) :=
  ⟨rfl, rfl⟩

/-- C2 (amended): a children byte range that is not exactly exhausted is
not a parse failure: the child sequence reader always succeeds (given fuel
above the range length), returning the well formed child prefix and the
unconsumed leftover, and the chunk reader accepts the frame with exactly
that prefix as its children, discarding the leftover bytes. -/
theorem claim2_children_not_exhausting_tolerated :
    (∀ (fuel : Nat) (input : Bytes), input.length < fuel →
        ∃ rest cs, many0ChunksF fuel input = .ok (rest, cs)) ∧
    (∀ (cb leftover : Bytes) (children : List Chunk), cb.length < 4294967296 →
        0 < cb.length →
        many0ChunksF (cb.length + 12) cb = .ok (leftover, children) →
        parse_chunk (frameZ cb) = .ok ([], .Unknown tZZZZ [] children)) := by
  constructor
  · exact many0ChunksF_total
  · intro cb leftover children hlt hpos hm
    have hfz : frameZ cb = tZZZZ ++ (enc32 0 ++ (enc32 cb.length ++ cb)) := by
      simp [frameZ, List.append_assoc]
    have hL : (frameZ cb).length = cb.length + 12 := by
      simp [frameZ, enc32, tZZZZ]
    have hstart : parse_chunk (frameZ cb)
        = parse_chunkBody (many0ChunksF (cb.length + 12)) (frameZ cb) := by
      show parse_chunkF ((frameZ cb).length + 1) (frameZ cb) = _
      rw [hL]
      rfl
    rw [hstart, hfz]
    unfold parse_chunkBody
    rw [show tZZZZ ++ (enc32 0 ++ (enc32 cb.length ++ cb))
          = [0x5A, 0x5A, 0x5A, 0x5A] ++ (enc32 0 ++ (enc32 cb.length ++ cb)) from rfl]
    rw [takeUtf8_cons4 _ _ _ _ _ (by decide)]
    simp only []
    rw [leU32_enc32 (by omega)]
    simp only []
    rw [leU32_enc32 hlt]
    simp only []
    have ht0 : takeP 0 cb = .ok (cb, []) := by simp [takeP]
    rw [ht0]
    simp only []
    have htall : takeP cb.length cb = .ok ([], cb) := by
      simp [takeP]
    rw [htall]
    simp only []
    rw [if_pos hpos, hm]
    simp only []
    rw [chunkDispatch_unknownZ]
    rfl

/-- Witness for the amended C2 at the one byte children range [0x00]: the
range holds no child frame, the whole byte is leftover, and the frame still
parses to an Unknown chunk with no children. -/
theorem claim2_children_not_exhausting_tolerated_witness :
    parse_chunk (frameZ [0x00]) = .ok ([], .Unknown tZZZZ [] []) :=
  claim2_children_not_exhausting_tolerated.2 [0x00] [0x00] [] (by decide) (by decide) rfl

/-- C3 (code bug evidence): a file whose first top level chunk is a well
formed SIZE chunk makes parse_file return the generic nom error of kind Eof
at the remaining input (parser.rs line 140), and a file truncated right
after magic and version returns the exact same error value; the decoder
therefore never produces the distinct NoMainChunk failure that error.rs
declares for the missing root container case. -/
theorem claim3_wrong_root_generic_error :
    parse_file c3WrongRoot = .error ⟨.eof, []⟩ ∧
    parse_file c3Truncated = .error ⟨.eof, []⟩ :=
  ⟨rfl, rfl⟩

theorem countP_length {α : Type} {p : Bytes → PResult α} :
    ∀ {n : Nat} {input rest : Bytes} {xs : List α},
      countP p n input = .ok (rest, xs) → xs.length = n := by
  intro n
  induction n with
  | zero => intro input rest xs h; simp_all [countP]
  | succ m ih =>
    intro input rest xs h
    unfold countP at h
    cases hp : p input with
    | error e => rw [hp] at h; simp at h
    | ok q =>
      obtain ⟨r1, a⟩ := q
      rw [hp] at h
      simp only [] at h
      cases hc : countP p m r1 with
      | error e => rw [hc] at h; simp at h
      | ok q2 =>
        obtain ⟨r2, ys⟩ := q2
        rw [hc] at h
        simp at h
        rw [← h.2, List.length_cons, ih hc]

theorem parse_RGBA_ok {input rest : Bytes} {cs : List Color}
    (h : parse_RGBA input = .ok (rest, cs)) : cs.length = 256 :=
  countP_length h

theorem chunkDispatch_ok_cases {kind : RString} {content : Bytes} {children : List Chunk}
    {c : Chunk} (h : chunkDispatch kind content children = .ok c) :
    palOKchild c ∧ (∀ ch, c = .MAIN ch → ch = children) := by
  unfold chunkDispatch at h
  by_cases k1 : kind = tMAIN
  · rw [if_pos k1] at h
    injection h with h2
    subst h2
    refine ⟨trivial, fun ch hch => ?_⟩
    injection hch with h3
    exact h3.symm
  rw [if_neg k1] at h
  by_cases k2 : kind = tPACK
  · rw [if_pos k2] at h
    cases hx : parse_PACK content with
    | error e => rw [hx] at h; exact Except.noConfusion h
    | ok p =>
      rw [hx] at h; injection h with h2; subst h2
      exact ⟨trivial, fun ch hch => Chunk.noConfusion hch⟩
  rw [if_neg k2] at h
  by_cases k3 : kind = tSIZE
  · rw [if_pos k3] at h
    cases hx : parse_SIZE content with
    | error e => rw [hx] at h; exact Except.noConfusion h
    | ok p =>
      rw [hx] at h; injection h with h2; subst h2
      exact ⟨trivial, fun ch hch => Chunk.noConfusion hch⟩
  rw [if_neg k3] at h
  by_cases k4 : kind = tXYZI
  · rw [if_pos k4] at h
    cases hx : parse_XYZI content with
    | error e => rw [hx] at h; exact Except.noConfusion h
    | ok p =>
      rw [hx] at h; injection h with h2; subst h2
      exact ⟨trivial, fun ch hch => Chunk.noConfusion hch⟩
  rw [if_neg k4] at h
  by_cases k5 : kind = tRGBA
  · rw [if_pos k5] at h
    cases hx : parse_RGBA content with
    | error e => rw [hx] at h; exact Except.noConfusion h
    | ok p =>
      rw [hx] at h; injection h with h2; subst h2
      exact ⟨parse_RGBA_ok hx, fun ch hch => Chunk.noConfusion hch⟩
  rw [if_neg k5] at h
  by_cases k6 : kind = tMATT
  · rw [if_pos k6] at h
    cases hx : parse_MATT content with
    | error e => rw [hx] at h; exact Except.noConfusion h
    | ok p =>
      rw [hx] at h; injection h with h2; subst h2
      exact ⟨trivial, fun ch hch => Chunk.noConfusion hch⟩
  rw [if_neg k6] at h
  by_cases k7 : kind = tMATL
  · rw [if_pos k7] at h
    cases hx : parse_MATL content with
    | error e => rw [hx] at h; exact Except.noConfusion h
    | ok p =>
      rw [hx] at h; injection h with h2; subst h2
      exact ⟨trivial, fun ch hch => Chunk.noConfusion hch⟩
  rw [if_neg k7] at h
  by_cases k8 : kind = trOBJ
  · rw [if_pos k8] at h
    cases hx : parse_rOBJ content with
    | error e => rw [hx] at h; exact Except.noConfusion h
    | ok p =>
      rw [hx] at h; injection h with h2; subst h2
      exact ⟨trivial, fun ch hch => Chunk.noConfusion hch⟩
  rw [if_neg k8] at h
  by_cases k9 : kind = trCAM
  · rw [if_pos k9] at h
    cases hx : parse_rCAM content with
    | error e => rw [hx] at h; exact Except.noConfusion h
    | ok p =>
      rw [hx] at h; injection h with h2; subst h2
      exact ⟨trivial, fun ch hch => Chunk.noConfusion hch⟩
  rw [if_neg k9] at h
  by_cases k10 : kind = tIMAP
  · rw [if_pos k10] at h
    cases hx : parse_IMAP content with
    | error e => rw [hx] at h; exact Except.noConfusion h
    | ok p =>
      rw [hx] at h; injection h with h2; subst h2
      exact ⟨trivial, fun ch hch => Chunk.noConfusion hch⟩
  rw [if_neg k10] at h
  by_cases k11 : kind = tNOTE
  · rw [if_pos k11] at h
    cases hx : parse_NOTE content with
    | error e => rw [hx] at h; exact Except.noConfusion h
    | ok p =>
      rw [hx] at h; injection h with h2; subst h2
      exact ⟨trivial, fun ch hch => Chunk.noConfusion hch⟩
  rw [if_neg k11] at h
  by_cases k12 : kind = tnTRN
  · rw [if_pos k12] at h
    cases hx : parse_nTRN content with
    | error e => rw [hx] at h; exact Except.noConfusion h
    | ok p =>
      rw [hx] at h; injection h with h2; subst h2
      exact ⟨trivial, fun ch hch => Chunk.noConfusion hch⟩
  rw [if_neg k12] at h
  by_cases k13 : kind = tnGRP
  · rw [if_pos k13] at h
    cases hx : parse_nGRP content with
    | error e => rw [hx] at h; exact Except.noConfusion h
    | ok p =>
      rw [hx] at h; injection h with h2; subst h2
      exact ⟨trivial, fun ch hch => Chunk.noConfusion hch⟩
  rw [if_neg k13] at h
  by_cases k14 : kind = tnSHP
  · rw [if_pos k14] at h
    cases hx : parse_nSHP content with
    | error e => rw [hx] at h; exact Except.noConfusion h
    | ok p =>
      rw [hx] at h; injection h with h2; subst h2
      exact ⟨trivial, fun ch hch => Chunk.noConfusion hch⟩
  rw [if_neg k14] at h
  by_cases k15 : kind = tLAYR
  · rw [if_pos k15] at h
    cases hx : parse_LAYR content with
    | error e => rw [hx] at h; exact Except.noConfusion h
    | ok p =>
      rw [hx] at h; injection h with h2; subst h2
      exact ⟨trivial, fun ch hch => Chunk.noConfusion hch⟩
  rw [if_neg k15] at h
  injection h with h2
  subst h2
  exact ⟨trivial, fun ch hch => Chunk.noConfusion hch⟩

theorem chunkDispatch_palOK {kind : RString} {content : Bytes} {children : List Chunk} {c : Chunk}
    (h : chunkDispatch kind content children = .ok c) : palOKchild c :=
  (chunkDispatch_ok_cases h).1

theorem chunkDispatch_MAIN {kind : RString} {content : Bytes} {children ch : List Chunk}
    (h : chunkDispatch kind content children = .ok (.MAIN ch)) : ch = children :=
  (chunkDispatch_ok_cases h).2 ch rfl

theorem parse_chunkBody_palOK {m0 : Bytes → PResult (List Chunk)} {input rest : Bytes} {c : Chunk}
    (hm0 : ∀ i r cs, m0 i = .ok (r, cs) → ∀ x ∈ cs, palOKchild x)
    (h : parse_chunkBody m0 input = .ok (rest, c)) :
    palOKchild c ∧ (∀ ch, c = .MAIN ch → ∀ x ∈ ch, palOKchild x) := by
  unfold parse_chunkBody at h
  cases h1 : takeUtf8 4 input with
  | error e => rw [h1] at h; simp at h
  | ok p1 =>
  obtain ⟨input1, kind⟩ := p1
  rw [h1] at h
  simp only [] at h
  cases h2 : leU32 input1 with
  | error e => rw [h2] at h; simp at h
  | ok p2 =>
  obtain ⟨input2, content_size⟩ := p2
  rw [h2] at h
  simp only [] at h
  cases h3 : leU32 input2 with
  | error e => rw [h3] at h; simp at h
  | ok p3 =>
  obtain ⟨input3, children_size⟩ := p3
  rw [h3] at h
  simp only [] at h
  cases h4 : takeP content_size input3 with
  | error e => rw [h4] at h; simp at h
  | ok p4 =>
  obtain ⟨input4, chunk_content⟩ := p4
  rw [h4] at h
  simp only [] at h
  cases h5 : takeP children_size input4 with
  | error e => rw [h5] at h; simp at h
  | ok p5 =>
  obtain ⟨input5, child_content⟩ := p5
  rw [h5] at h
  simp only [] at h
  have hkids : ∀ children2 : List Chunk,
      (if 0 < children_size then
         match m0 child_content with
         | .error e => .error e
         | .ok (_, cs) => .ok cs
       else (.ok [] : Except NomError (List Chunk))) = .ok children2 →
      ∀ x ∈ children2, palOKchild x := by
    intro children2 hc
    split at hc
    · cases hm : m0 child_content with
      | error e => rw [hm] at hc; simp at hc
      | ok q =>
        obtain ⟨r0, cs0⟩ := q
        rw [hm] at hc
        simp at hc
        exact hc ▸ hm0 child_content r0 cs0 hm
    · simp at hc
      subst hc
      intro x hx
      simp at hx
  split at h
  · simp at h
  · next children2 hc =>
    split at h
    · simp at h
    · next c2 hd =>
      simp at h
      obtain ⟨-, hcc⟩ := h
      subst hcc
      refine ⟨chunkDispatch_palOK hd, ?_⟩
      intro ch hch
      subst hch
      have := chunkDispatch_MAIN hd
      subst this
      exact hkids _ hc

theorem chunk_palOK_all : ∀ fuel : Nat,
    (∀ input rest c, parse_chunkF fuel input = .ok (rest, c) →
        palOKchild c ∧ (∀ ch, c = .MAIN ch → ∀ x ∈ ch, palOKchild x)) ∧
    (∀ input rest cs, many0ChunksF fuel input = .ok (rest, cs) →
        ∀ x ∈ cs, palOKchild x) := by
  intro fuel
  induction fuel with
  | zero =>
    constructor
    · intro input rest c h; simp [parse_chunkF, chunkFuel] at h
    · intro input rest cs h; simp [many0ChunksF, chunkFuel] at h
  | succ n ih =>
    constructor
    · intro input rest c h
      have h2 : parse_chunkBody (many0ChunksF n) input = .ok (rest, c) := h
      exact parse_chunkBody_palOK (fun i r cs hm => ih.2 i r cs hm) h2
    · intro input rest cs h
      have h2 : many0Body (parse_chunkF n) (many0ChunksF n) input = .ok (rest, cs) := h
      unfold many0Body at h2
      cases hp : parse_chunkF n input with
      | error e => rw [hp] at h2; simp_all
      | ok p =>
        obtain ⟨r1, c1⟩ := p
        rw [hp] at h2
        simp only [] at h2
        split at h2
        · cases hq : many0ChunksF n r1 with
          | error e => rw [hq] at h2; simp at h2
          | ok q =>
            obtain ⟨r2, cs2⟩ := q
            rw [hq] at h2
            simp at h2
            intro x hx
            rw [← h2.2] at hx
            cases hx with
            | head => exact (ih.1 input r1 c1 hp).1
            | tail _ hx2 => exact ih.2 r1 r2 cs2 hq x hx2
        · simp at h2

/-- Destructuring of a successful parse_file: the document is the fold of
processChild over the children of the root MAIN chunk, and every RGBA
child carries exactly 256 colors. -/
theorem parse_file_ok {input rest : Bytes} {f : VoxFile}
    (h : parse_file input = .ok (rest, f)) :
    ∃ children : List Chunk, (∀ x ∈ children, palOKchild x) ∧
      f = (children.foldl processChild ⟨VoxFile.default, 0, none⟩).file := by
  unfold parse_file at h
  cases h1 : tagP MAGIC_NUMBER input with
  | error e => rw [h1] at h; simp at h
  | ok p1 =>
  obtain ⟨i1, mg⟩ := p1
  rw [h1] at h
  simp only [] at h
  cases h2 : leU32 i1 with
  | error e => rw [h2] at h; simp at h
  | ok p2 =>
  obtain ⟨i2, ver⟩ := p2
  rw [h2] at h
  simp only [] at h
  cases h3 : parse_chunk i2 with
  | error e => rw [h3] at h; simp at h
  | ok p3 =>
  obtain ⟨i3, main⟩ := p3
  rw [h3] at h
  simp only [] at h
  cases main
  case MAIN children =>
    simp at h
    refine ⟨children, ?_, h.2.symm⟩
    exact (chunk_palOK_all (i2.length + 1)).1 i2 i3 (.MAIN children) h3 |>.2 children rfl
  all_goals simp at h

theorem processChild_version (st : AsmState) (c : Chunk) :
    (processChild st c).file.version = st.file.version := by
  cases c <;> cases hms : st.model_size <;> simp [processChild, hms]

theorem foldl_version (children : List Chunk) : ∀ st : AsmState,
    (children.foldl processChild st).file.version = st.file.version := by
  induction children with
  | nil => intro st; rfl
  | cons c cs ih => intro st; rw [List.foldl_cons, ih, processChild_version]

theorem processChild_palette (st : AsmState) (c : Chunk) (hc : ∀ cs, c ≠ .RGBA cs) :
    (processChild st c).file.palette = st.file.palette := by
  cases c
  case RGBA colors => exact absurd rfl (hc colors)
  all_goals cases hms : st.model_size
  all_goals simp [processChild, hms]

theorem processChild_idsOK {st : AsmState}
    (h1 : st.model_id = st.file.models.length)
    (h2 : st.file.models.map Model.id = List.range st.file.models.length) (c : Chunk) :
    (processChild st c).model_id = (processChild st c).file.models.length ∧
    (processChild st c).file.models.map Model.id
      = List.range (processChild st c).file.models.length := by
  cases c
  case XYZI voxels =>
    cases hms : st.model_size with
    | none => simp [processChild, hms, h1, h2]
    | some size =>
      simp [processChild, hms]
      constructor
      · simp [h1]
      · rw [h2, h1, List.range_succ]
  all_goals simp [processChild, h1, h2]

theorem foldl_idsOK (children : List Chunk) : ∀ st : AsmState,
    st.model_id = st.file.models.length →
    st.file.models.map Model.id = List.range st.file.models.length →
    (children.foldl processChild st).model_id
      = (children.foldl processChild st).file.models.length ∧
    (children.foldl processChild st).file.models.map Model.id
      = List.range (children.foldl processChild st).file.models.length := by
  induction children with
  | nil => intro st h1 h2; exact ⟨h1, h2⟩
  | cons c cs ih =>
    intro st h1 h2
    rw [List.foldl_cons]
    obtain ⟨g1, g2⟩ := processChild_idsOK h1 h2 c
    exact ih _ g1 g2

/-- C4: in the single pass over the MAIN children, an XYZI chunk arriving
while a pending size is present appends exactly one Model carrying the next
sequential identifier, the pending size and the decoded voxels, increments
the identifier and clears the pending size slot; an XYZI with no pending
size changes nothing (no model, no error); consequently the model
identifiers of every successfully decoded document are 0, 1, 2, ... in
order. -/
theorem claim4_size_xyzi_pairing :
    (∀ (st : AsmState) (size : Size) (voxels : List Voxel), st.model_size = some size →
        processChild st (.XYZI voxels) =
          { st with
            file := { st.file with
                      models := st.file.models ++ [⟨st.model_id, size, voxels⟩] }
            model_id := st.model_id + 1
            model_size := none }) ∧
    (∀ (st : AsmState) (voxels : List Voxel), st.model_size = none →
        processChild st (.XYZI voxels) = st) ∧
    (∀ (input rest : Bytes) (f : VoxFile), parse_file input = .ok (rest, f) →
        f.models.map Model.id = List.range f.models.length) := by
  refine ⟨?_, ?_, ?_⟩
  · intro st size voxels h
    simp [processChild, h]
  · intro st voxels h
    simp [processChild, h]
  · intro input rest f h
    obtain ⟨children, -, hf⟩ := parse_file_ok h
    rw [hf]
    exact (foldl_idsOK children ⟨VoxFile.default, 0, none⟩ rfl rfl).2

/-- Witness for C4: one paired XYZI appends model 0 and clears the slot, an
unpaired XYZI is a no-op, and the demo document has identifiers 0,1,2,...  -/
theorem claim4_size_xyzi_pairing_witness :
    processChild ⟨VoxFile.default, 0, some ⟨2, 3, 4⟩⟩ (.XYZI [⟨1, 1, 1, 5⟩]) =
      ⟨{ VoxFile.default with models := [⟨0, ⟨2, 3, 4⟩, [⟨1, 1, 1, 5⟩]⟩] }, 1, none⟩ ∧
    processChild ⟨VoxFile.default, 3, none⟩ (.XYZI [⟨1, 1, 1, 5⟩]) = ⟨VoxFile.default, 3, none⟩ ∧
    demoFile.models.map Model.id = List.range demoFile.models.length :=
  ⟨claim4_size_xyzi_pairing.1 ⟨VoxFile.default, 0, some ⟨2, 3, 4⟩⟩ ⟨2, 3, 4⟩ [⟨1, 1, 1, 5⟩] rfl,
   claim4_size_xyzi_pairing.2.1 ⟨VoxFile.default, 3, none⟩ [⟨1, 1, 1, 5⟩] rfl,
   claim4_size_xyzi_pairing.2.2 demoBytes [] demoFile rfl⟩

theorem exists_len4 {l : Bytes} (h : l.length = 4) :
    ∃ b0 b1 b2 b3, l = [b0, b1, b2, b3] := by
  rcases l with _ | ⟨b0, _ | ⟨b1, _ | ⟨b2, _ | ⟨b3, _ | ⟨b4, t⟩⟩⟩⟩⟩ <;> simp_all

theorem tagP_self (t r : Bytes) : tagP t (t ++ r) = .ok (r, t) := by
  unfold tagP
  rw [List.take_left, if_pos rfl, List.drop_left]

/-- C10: the document version of every successful decode is the constant
150 from VoxFile::default; the version word of the header is read only to
advance the cursor, so replacing it by any other four bytes leaves the
decode result unchanged. -/
theorem claim10_version_constant :
    (∀ (input rest : Bytes) (f : VoxFile), parse_file input = .ok (rest, f) →
        f.version = 150) ∧
    (∀ (a b rest : Bytes), a.length = 4 → b.length = 4 →
        parse_file (MAGIC_NUMBER ++ (a ++ rest)) = parse_file (MAGIC_NUMBER ++ (b ++ rest))) := by
  constructor
  · intro input rest f h
    obtain ⟨children, -, hf⟩ := parse_file_ok h
    rw [hf, foldl_version]
    rfl
  · have key : ∀ (a rest : Bytes), a.length = 4 →
        parse_file (MAGIC_NUMBER ++ (a ++ rest)) =
          (match parse_chunk rest with
           | .error e => .error e
           | .ok (input, main) =>
             match main with
             | .MAIN children =>
               .ok (input, (children.foldl processChild ⟨VoxFile.default, 0, none⟩).file)
             | _ => .error ⟨.eof, input⟩) := by
      intro a rest ha
      obtain ⟨b0, b1, b2, b3, rfl⟩ := exists_len4 ha
      unfold parse_file
      rw [tagP_self]
      simp only []
      rw [show leU32 ([b0, b1, b2, b3] ++ rest)
            = .ok (rest, u32FromBytes b0 b1 b2 b3) from rfl]
    intro a b rest ha hb
    rw [key a rest ha, key b rest hb]

/-- Witness for C10: demoBytes carries the version word 7, yet decodes to a
document whose version field is 150. -/
theorem claim10_version_constant_witness : demoFile.version = 150 :=
  claim10_version_constant.1 demoBytes [] demoFile rfl

set_option maxRecDepth 4000 in
theorem DEFAULT_PALETTE_length : DEFAULT_PALETTE.length = 256 := by rfl

theorem foldl_palette_length (children : List Chunk) : ∀ st : AsmState,
    (∀ x ∈ children, palOKchild x) → st.file.palette.length = 256 →
    (children.foldl processChild st).file.palette.length = 256 := by
  induction children with
  | nil => intro st _ h256; exact h256
  | cons c cs ih =>
    intro st hall h256
    rw [List.foldl_cons]
    refine ih _ (fun x hx => hall x (List.mem_cons_of_mem _ hx)) ?_
    cases c
    case RGBA colors =>
      have hp := hall (.RGBA colors) (List.mem_cons_self _ _)
      simpa [processChild, palOKchild] using hp
    all_goals rw [processChild_palette _ _ (fun cs2 hne => Chunk.noConfusion hne)]
    all_goals exact h256

theorem foldl_palette_nochange (post : List Chunk) : ∀ st : AsmState,
    (∀ x ∈ post, ∀ cs2, x ≠ Chunk.RGBA cs2) →
    (post.foldl processChild st).file.palette = st.file.palette := by
  induction post with
  | nil => intro st _; rfl
  | cons c cs ih =>
    intro st hall
    rw [List.foldl_cons, ih _ (fun x hx => hall x (List.mem_cons_of_mem _ hx)),
        processChild_palette _ _ (hall c (List.mem_cons_self _ _))]

/-- C8: the palette of every successfully decoded document has exactly 256
entries: the default table has 256, every RGBA payload decodes to exactly
256 colors, an RGBA chunk replaces the palette outright during assembly,
and when several RGBA chunks occur the last one decides the final
palette. -/
theorem claim8_palette_invariant :
    VoxFile.default.palette.length = 256 ∧
    (∀ (input rest : Bytes) (cs : List Color), parse_RGBA input = .ok (rest, cs) →
        cs.length = 256) ∧
    (∀ (st : AsmState) (colors : List Color),
        processChild st (.RGBA colors)
          = { st with file := { st.file with palette := colors } }) ∧
    (∀ (input rest : Bytes) (f : VoxFile), parse_file input = .ok (rest, f) →
        f.palette.length = 256) ∧
    (∀ (st : AsmState) (pre post : List Chunk) (colors : List Color),
        (∀ x ∈ post, ∀ cs2, x ≠ Chunk.RGBA cs2) →
        ((pre ++ .RGBA colors :: post).foldl processChild st).file.palette = colors) := by
  refine ⟨DEFAULT_PALETTE_length, fun _ _ _ h => parse_RGBA_ok h, ?_, ?_, ?_⟩
  · intro st colors
    simp [processChild]
  · intro input rest f h
    obtain ⟨children, hpal, hf⟩ := parse_file_ok h
    rw [hf]
    exact foldl_palette_length children _ hpal DEFAULT_PALETTE_length
  · intro st pre post colors hpost
    rw [List.foldl_append, List.foldl_cons, foldl_palette_nochange post _ hpost]
    simp [processChild]

/-- Witness for C8: the demo document (no RGBA chunk) keeps the 256 entry
default table, and a concrete RGBA chunk replaces the palette outright. -/
theorem claim8_palette_invariant_witness :
    demoFile.palette.length = 256 ∧
    processChild ⟨VoxFile.default, 0, none⟩ (.RGBA [⟨none, 1, 2, 3, 4⟩])
      = ⟨{ VoxFile.default with palette := [⟨none, 1, 2, 3, 4⟩] }, 0, none⟩ :=
  ⟨claim8_palette_invariant.2.2.2.1 demoBytes [] demoFile rfl,
   claim8_palette_invariant.2.2.1 ⟨VoxFile.default, 0, none⟩ [⟨none, 1, 2, 3, 4⟩]⟩

theorem dictLookup_insert (m : Dict) (k v q : RString) :
    dictLookup (dictInsert m k v) q = if k = q then some v else dictLookup m q := by
  induction m with
  | nil =>
    by_cases hq : k = q <;> simp [dictInsert, dictLookup, hq]
  | cons p rest ih =>
    obtain ⟨k0, v0⟩ := p
    by_cases hk : k0 = k
    · subst hk
      by_cases hq : k0 = q <;> simp [dictInsert, dictLookup, hq]
    · by_cases hq : k0 = q
      · subst hq
        have hkq : ¬(k = k0) := fun he => hk he.symm
        simp [dictInsert, dictLookup, hk, hkq]
      · simp [dictInsert, dictLookup, hk, hq, ih]

theorem dictFromIter_lookup (pairs : List (RString × RString)) (q : RString) :
    dictLookup (dictFromIter pairs) q = lastLookup pairs q := by
  suffices h : ∀ m : Dict,
      dictLookup (pairs.foldl (fun m kv => dictInsert m kv.1 kv.2) m) q
        = pairs.foldl (fun acc p => if p.1 = q then some p.2 else acc) (dictLookup m q) by
    exact h []
  induction pairs with
  | nil => intro m; rfl
  | cons p rest ih =>
    intro m
    obtain ⟨k, v⟩ := p
    rw [List.foldl_cons, List.foldl_cons, ih, dictLookup_insert]

/-- C5 (amended): decoding a Dictionary payload yields a hash map that
preserves the key/value content of the entries as read (a lookup returns
the value of the last read pair carrying that key, so later duplicate keys
overwrite earlier ones), and a 2 entry payload with distinct keys decodes
to both pairs with their exact byte content; the insertion ORDER, however,
is not an observable of the Dict type (std HashMap), so iteration in read
order is not guaranteed. -/
theorem claim5_dict_content :
    (∀ (pairs : List (RString × RString)) (q : RString),
        dictLookup (dictFromIter pairs) q = lastLookup pairs q) ∧
    parse_DICT dictTwoBytes = .ok ([], [([0x61], [0x31]), ([0x62], [0x32])]) :=
  ⟨dictFromIter_lookup, rfl⟩

/-- C5 counterexample: the payload dictDupBytes declares two entries, the
pairs ("a","1") and ("a","2") in that order, but the decoded mapping holds
a single entry ("a","2"): no iteration of the decoded mapping can
enumerate the two read pairs in read order, because the first pair is gone
(duplicate keys collapse in the hash map). -/
theorem claim5_counterexample :
    u32LE dictDupBytes = 2 ∧
    parse_DICT dictDupBytes = .ok ([], [([0x61], [0x32])]) :=
  ⟨rfl, rfl⟩

theorem exists_cons4 {l : Bytes} (h : 4 ≤ l.length) :
    ∃ b0 b1 b2 b3 t, l = b0 :: b1 :: b2 :: b3 :: t := by
  rcases l with _ | ⟨b0, _ | ⟨b1, _ | ⟨b2, _ | ⟨b3, t⟩⟩⟩⟩
  · simp at h
  · simp at h
  · simp at h
  · simp at h
  · exact ⟨b0, b1, b2, b3, t, rfl⟩

/-- C7: the String decoder reads a 32 bit byte length and then exactly that
many bytes: a declared length past the end of the buffer is a truncation
failure (nom kind Eof) with nothing read out of bounds, bytes that are not
valid UTF-8 are a decode failure (nom kind MapRes) with no replacement
characters, and otherwise the decoded string is exactly the declared bytes. -/
theorem claim7_string_safety :
    (∀ input : Bytes, 4 ≤ input.length → input.length < 4 + u32LE input →
        parse_STRING input = .error ⟨.eof, input.drop 4⟩) ∧
    (∀ input : Bytes, 4 + u32LE input ≤ input.length →
        utf8Valid ((input.drop 4).take (u32LE input)) = false →
        parse_STRING input = .error ⟨.mapRes, input.drop 4⟩) ∧
    (∀ input : Bytes, 4 + u32LE input ≤ input.length →
        utf8Valid ((input.drop 4).take (u32LE input)) = true →
        parse_STRING input = .ok (input.drop (4 + u32LE input), (input.drop 4).take (u32LE input))) := by
  refine ⟨?_, ?_, ?_⟩
  · intro input hlen hshort
    obtain ⟨b0, b1, b2, b3, t, rfl⟩ := exists_cons4 hlen
    have hps : parse_STRING (b0 :: b1 :: b2 :: b3 :: t)
        = takeUtf8 (u32FromBytes b0 b1 b2 b3) t := rfl
    have hn : u32LE (b0 :: b1 :: b2 :: b3 :: t) = u32FromBytes b0 b1 b2 b3 := rfl
    rw [hps]
    have htl : (b0 :: b1 :: b2 :: b3 :: t).length = t.length + 4 := by simp
    have htp : takeP (u32FromBytes b0 b1 b2 b3) t = .error ⟨.eof, t⟩ := by
      unfold takeP
      rw [if_pos]
      rw [hn] at hshort
      omega
    unfold takeUtf8
    rw [htp]
    rfl
  · intro input hlen hinval
    obtain ⟨b0, b1, b2, b3, t, rfl⟩ := @exists_cons4 input (by omega)
    have hps : parse_STRING (b0 :: b1 :: b2 :: b3 :: t)
        = takeUtf8 (u32FromBytes b0 b1 b2 b3) t := rfl
    have hn : u32LE (b0 :: b1 :: b2 :: b3 :: t) = u32FromBytes b0 b1 b2 b3 := rfl
    have hd : (b0 :: b1 :: b2 :: b3 :: t).drop 4 = t := rfl
    rw [hps]
    rw [hn] at hlen hinval
    rw [hd] at hinval
    have htl : (b0 :: b1 :: b2 :: b3 :: t).length = t.length + 4 := by simp
    have htp : takeP (u32FromBytes b0 b1 b2 b3) t
        = .ok (t.drop (u32FromBytes b0 b1 b2 b3), t.take (u32FromBytes b0 b1 b2 b3)) := by
      unfold takeP
      rw [if_neg]
      omega
    unfold takeUtf8
    rw [htp]
    simp only []
    rw [if_neg (by simp [hinval])]
    rfl
  · intro input hlen hval
    obtain ⟨b0, b1, b2, b3, t, rfl⟩ := @exists_cons4 input (by omega)
    have hps : parse_STRING (b0 :: b1 :: b2 :: b3 :: t)
        = takeUtf8 (u32FromBytes b0 b1 b2 b3) t := rfl
    have hn : u32LE (b0 :: b1 :: b2 :: b3 :: t) = u32FromBytes b0 b1 b2 b3 := rfl
    have hd : (b0 :: b1 :: b2 :: b3 :: t).drop 4 = t := rfl
    rw [hps]
    rw [hn] at hlen hval ⊢
    rw [hd] at hval ⊢
    have htl : (b0 :: b1 :: b2 :: b3 :: t).length = t.length + 4 := by simp
    have htp : takeP (u32FromBytes b0 b1 b2 b3) t
        = .ok (t.drop (u32FromBytes b0 b1 b2 b3), t.take (u32FromBytes b0 b1 b2 b3)) := by
      unfold takeP
      rw [if_neg]
      omega
    unfold takeUtf8
    rw [htp]
    simp only []
    rw [if_pos hval]
    have : (b0 :: b1 :: b2 :: b3 :: t).drop (4 + u32FromBytes b0 b1 b2 b3)
        = t.drop (u32FromBytes b0 b1 b2 b3) := by
      rw [show 4 + u32FromBytes b0 b1 b2 b3 = u32FromBytes b0 b1 b2 b3 + 4 from by omega]
      rfl
    rw [this]

/-- Witness for C7: a truncated length, an invalid UTF-8 byte, and a valid
one byte string, each at a concrete five byte input. -/
theorem claim7_string_safety_witness :
    parse_STRING [5, 0, 0, 0, 65] = .error ⟨.eof, [65]⟩ ∧
    parse_STRING [1, 0, 0, 0, 0x80] = .error ⟨.mapRes, [0x80]⟩ ∧
    parse_STRING [1, 0, 0, 0, 0x41] = .ok ([], [0x41]) :=
  ⟨claim7_string_safety.1 [5, 0, 0, 0, 65] (by decide) (by decide),
   claim7_string_safety.2.1 [1, 0, 0, 0, 0x80] (by decide) (by decide),
   claim7_string_safety.2.2 [1, 0, 0, 0, 0x41] (by decide) (by decide)⟩

theorem parse_voxel_ok {input rest : Bytes} {v : Voxel}
    (h : parse_voxel input = .ok (rest, v)) :
    input = v.x :: v.y :: v.z :: v.i :: rest := by
  unfold parse_voxel at h
  rcases input with _ | ⟨x, _ | ⟨y, _ | ⟨z, _ | ⟨i, t⟩⟩⟩⟩ <;> simp_all [leU8]
  simp [← h.2]

theorem countP_voxels : ∀ (n : Nat) (input rest : Bytes) (vs : List Voxel),
    countP parse_voxel n input = .ok (rest, vs) →
    vs.length = n ∧
    ∀ k (hk : k < vs.length), (vs.get ⟨k, hk⟩).i = input.getD (4 * k + 3) 0 := by
  intro n
  induction n with
  | zero =>
    intro input rest vs h
    simp [countP] at h
    refine ⟨by rw [h.2]; rfl, ?_⟩
    intro k hk
    rw [h.2] at hk
    simp at hk
  | succ m ih =>
    intro input rest vs h
    unfold countP at h
    cases hp : parse_voxel input with
    | error e => rw [hp] at h; simp at h
    | ok q =>
      obtain ⟨r1, v⟩ := q
      rw [hp] at h
      simp only [] at h
      cases hc : countP parse_voxel m r1 with
      | error e => rw [hc] at h; simp at h
      | ok q2 =>
        obtain ⟨r2, ys⟩ := q2
        rw [hc] at h
        simp at h
        obtain ⟨-, hvs⟩ := h
        obtain ⟨hlen, hget⟩ := ih r1 r2 ys hc
        have hin := parse_voxel_ok hp
        subst hvs
        refine ⟨by simp [hlen], ?_⟩
        intro k hk
        cases k with
        | zero =>
          rw [hin]
          simp
        | succ k2 =>
          rw [List.get_cons_succ, hin]
          have hidx : 4 * (k2 + 1) + 3 = (((4 * k2 + 3) + 1) + 1 + 1) + 1 := by ring
          rw [hidx, List.getD_cons_succ, List.getD_cons_succ, List.getD_cons_succ,
              List.getD_cons_succ]
          exact hget k2 (by simpa using hk)

/-- C9: every decoded Voxel keeps the raw fourth byte of its 4 byte record
as its palette index field, exactly as stored on disk, with no subtraction
or remapping: record k of an XYZI payload (after the 4 byte count) puts its
byte at offset 4k+3 straight into the i field. -/
theorem claim9_raw_palette_index :
    ∀ (input rest : Bytes) (vs : List Voxel), parse_XYZI input = .ok (rest, vs) →
      vs.length = u32LE input ∧
      ∀ k (hk : k < vs.length),
        (vs.get ⟨k, hk⟩).i = (input.drop 4).getD (4 * k + 3) 0 := by
  intro input rest vs h
  unfold parse_XYZI at h
  cases hl : leU32 input with
  | error e => rw [hl] at h; simp at h
  | ok p =>
    obtain ⟨i1, cnt⟩ := p
    rw [hl] at h
    simp only [] at h
    obtain ⟨hlen4, hdrop, hn⟩ := leU32_ok hl
    obtain ⟨hlen, hget⟩ := countP_voxels cnt i1 rest vs h
    refine ⟨by rw [hlen, hn], ?_⟩
    intro k hk
    rw [hget k hk, hdrop]

/-- Witness for C9 at a two record payload: record 1 is (5,6,7,8) and the
decoded palette index of voxel 1 equals the raw byte 8 at offset 4*1+3 of
the record area. -/
theorem claim9_raw_palette_index_witness :
    ([⟨1, 2, 3, 4⟩, ⟨5, 6, 7, 8⟩] : List Voxel).length = u32LE xyziTwoBytes ∧
    (([⟨1, 2, 3, 4⟩, ⟨5, 6, 7, 8⟩] : List Voxel).get ⟨1, by decide⟩).i
      = (xyziTwoBytes.drop 4).getD (4 * 1 + 3) 0 :=
  ⟨(claim9_raw_palette_index xyziTwoBytes [] [⟨1, 2, 3, 4⟩, ⟨5, 6, 7, 8⟩] rfl).1,
   (claim9_raw_palette_index xyziTwoBytes [] [⟨1, 2, 3, 4⟩, ⟨5, 6, 7, 8⟩] rfl).2 1 (by decide)⟩

theorem leF32_ok {input rest : Bytes} {n : F32} (h : leF32 input = .ok (rest, n)) :
    4 ≤ input.length ∧ rest = input.drop 4 ∧ n = u32LE input :=
  leU32_ok h

theorem gatedF32_ok {b : Bool} {input rest : Bytes} {v : Option F32}
    (h : gatedF32 b input = .ok (rest, v)) :
    v.isSome = b ∧ rest = input.drop (4 * b.toNat) := by
  cases b with
  | false =>
    simp [gatedF32] at h
    simp [← h.1, ← h.2]
  | true =>
    unfold gatedF32 at h
    rw [if_pos rfl] at h
    cases hl : leF32 input with
    | error e => rw [hl] at h; simp at h
    | ok p =>
      obtain ⟨r, n⟩ := p
      rw [hl] at h
      simp at h
      obtain ⟨-, hd, -⟩ := leF32_ok hl
      simp [← h.1, ← h.2, hd]

theorem and_two_pow_ne (n k : Nat) : (n &&& 2 ^ k != 0) = n.testBit k := by
  cases hb : n.testBit k <;>
    simp [Nat.and_two_pow, hb, (Nat.two_pow_pos k).ne']

/-- C6: in a MATT payload the bitmask read after id, kind and weight gates
the seven optional floats in the fixed order plastic, roughness, specular,
ior, attenuation, power, glow through bits 0..6 (4 bytes consumed per set
bit, none and absent per clear bit), bit 7 sets the total power flag
without consuming bytes, and the remaining input sits 16 + 4 * (number of
set gate bits) past the payload start; concretely, bitmask 0x05 followed by
two float words yields plastic and specular present with exactly those two
word values, the other five absent, and is_total_power false. -/
theorem claim6_matt_bitmask :
    (∀ (input rest : Bytes) (m : MaterialV1), parse_MATT input = .ok (rest, m) →
        m.plastic.isSome = (u32LE (input.drop 12)).testBit 0 ∧
        m.roughness.isSome = (u32LE (input.drop 12)).testBit 1 ∧
        m.specular.isSome = (u32LE (input.drop 12)).testBit 2 ∧
        m.ior.isSome = (u32LE (input.drop 12)).testBit 3 ∧
        m.attenuation.isSome = (u32LE (input.drop 12)).testBit 4 ∧
        m.power.isSome = (u32LE (input.drop 12)).testBit 5 ∧
        m.glow.isSome = (u32LE (input.drop 12)).testBit 6 ∧
        m.is_total_power = (u32LE (input.drop 12)).testBit 7 ∧
        rest = input.drop (16 + 4 * gateCount (u32LE (input.drop 12)))) ∧
    parse_MATT mattBytes05 =
      .ok ([], { id := 7, kind := 1, weight := 1065353216, plastic := some 1036831949,
                 roughness := none, specular := some 1008981770, ior := none,
                 attenuation := none, power := none, glow := none,
                 is_total_power := false }) := by
  constructor
  · intro input rest m h
    unfold parse_MATT at h
    cases h1 : leU32 input with
    | error e => rw [h1] at h; simp at h
    | ok p1 =>
    obtain ⟨i1, idv⟩ := p1
    rw [h1] at h
    simp only [] at h
    cases h2 : leU32 i1 with
    | error e => rw [h2] at h; simp at h
    | ok p2 =>
    obtain ⟨i2, kindv⟩ := p2
    rw [h2] at h
    simp only [] at h
    cases h3 : leF32 i2 with
    | error e => rw [h3] at h; simp at h
    | ok p3 =>
    obtain ⟨i3, weightv⟩ := p3
    rw [h3] at h
    simp only [] at h
    cases h4 : leU32 i3 with
    | error e => rw [h4] at h; simp at h
    | ok p4 =>
    obtain ⟨i4, bits⟩ := p4
    rw [h4] at h
    simp only [] at h
    cases hg1 : gatedF32 (bits &&& 1 != 0) i4 with
    | error e => rw [hg1] at h; simp at h
    | ok q1 =>
    obtain ⟨i5, v1⟩ := q1
    rw [hg1] at h
    simp only [] at h
    cases hg2 : gatedF32 (bits &&& 2 != 0) i5 with
    | error e => rw [hg2] at h; simp at h
    | ok q2 =>
    obtain ⟨i6, v2⟩ := q2
    rw [hg2] at h
    simp only [] at h
    cases hg3 : gatedF32 (bits &&& 4 != 0) i6 with
    | error e => rw [hg3] at h; simp at h
    | ok q3 =>
    obtain ⟨i7, v3⟩ := q3
    rw [hg3] at h
    simp only [] at h
    cases hg4 : gatedF32 (bits &&& 8 != 0) i7 with
    | error e => rw [hg4] at h; simp at h
    | ok q4 =>
    obtain ⟨i8, v4⟩ := q4
    rw [hg4] at h
    simp only [] at h
    cases hg5 : gatedF32 (bits &&& 16 != 0) i8 with
    | error e => rw [hg5] at h; simp at h
    | ok q5 =>
    obtain ⟨i9, v5⟩ := q5
    rw [hg5] at h
    simp only [] at h
    cases hg6 : gatedF32 (bits &&& 32 != 0) i9 with
    | error e => rw [hg6] at h; simp at h
    | ok q6 =>
    obtain ⟨i10, v6⟩ := q6
    rw [hg6] at h
    simp only [] at h
    cases hg7 : gatedF32 (bits &&& 64 != 0) i10 with
    | error e => rw [hg7] at h; simp at h
    | ok q7 =>
    obtain ⟨i11, v7⟩ := q7
    rw [hg7] at h
    simp at h
    obtain ⟨hrest, hm⟩ := h
    obtain ⟨-, hd1, -⟩ := leU32_ok h1
    obtain ⟨-, hd2, -⟩ := leU32_ok h2
    obtain ⟨-, hd3, -⟩ := leF32_ok h3
    obtain ⟨-, hd4, hb4⟩ := leU32_ok h4
    have e2 : i2 = input.drop 8 := by rw [hd2, hd1, List.drop_drop]
    have e3 : i3 = input.drop 12 := by rw [hd3, e2, List.drop_drop]
    have e4 : i4 = input.drop 16 := by rw [hd4, e3, List.drop_drop]
    have ebits : bits = u32LE (input.drop 12) := by rw [hb4, e3]
    obtain ⟨hs1, hr1⟩ := gatedF32_ok hg1
    obtain ⟨hs2, hr2⟩ := gatedF32_ok hg2
    obtain ⟨hs3, hr3⟩ := gatedF32_ok hg3
    obtain ⟨hs4, hr4⟩ := gatedF32_ok hg4
    obtain ⟨hs5, hr5⟩ := gatedF32_ok hg5
    obtain ⟨hs6, hr6⟩ := gatedF32_ok hg6
    obtain ⟨hs7, hr7⟩ := gatedF32_ok hg7
    have t0 : (bits &&& 1 != 0) = bits.testBit 0 := by
      rw [show (1 : Nat) = 2 ^ 0 from rfl]
      exact and_two_pow_ne bits 0
    have t1 : (bits &&& 2 != 0) = bits.testBit 1 := by
      rw [show (2 : Nat) = 2 ^ 1 from rfl]
      exact and_two_pow_ne bits 1
    have t2 : (bits &&& 4 != 0) = bits.testBit 2 := by
      rw [show (4 : Nat) = 2 ^ 2 from rfl]
      exact and_two_pow_ne bits 2
    have t3 : (bits &&& 8 != 0) = bits.testBit 3 := by
      rw [show (8 : Nat) = 2 ^ 3 from rfl]
      exact and_two_pow_ne bits 3
    have t4 : (bits &&& 16 != 0) = bits.testBit 4 := by
      rw [show (16 : Nat) = 2 ^ 4 from rfl]
      exact and_two_pow_ne bits 4
    have t5 : (bits &&& 32 != 0) = bits.testBit 5 := by
      rw [show (32 : Nat) = 2 ^ 5 from rfl]
      exact and_two_pow_ne bits 5
    have t6 : (bits &&& 64 != 0) = bits.testBit 6 := by
      rw [show (64 : Nat) = 2 ^ 6 from rfl]
      exact and_two_pow_ne bits 6
    have t7 : (bits &&& 128 != 0) = bits.testBit 7 := by
      rw [show (128 : Nat) = 2 ^ 7 from rfl]
      exact and_two_pow_ne bits 7
    have hrfin : rest = input.drop (16 + 4 * (bits.testBit 0).toNat + 4 * (bits.testBit 1).toNat
        + 4 * (bits.testBit 2).toNat + 4 * (bits.testBit 3).toNat + 4 * (bits.testBit 4).toNat
        + 4 * (bits.testBit 5).toNat + 4 * (bits.testBit 6).toNat) := by
      rw [← hrest, hr7, hr6, hr5, hr4, hr3, hr2, hr1, e4,
          List.drop_drop, List.drop_drop, List.drop_drop, List.drop_drop, List.drop_drop,
          List.drop_drop, List.drop_drop, t0, t1, t2, t3, t4, t5, t6]
      congr 1
      omega
    subst hm
    refine ⟨?_, ?_, ?_, ?_, ?_, ?_, ?_, ?_, ?_⟩
    · rw [show (MaterialV1.mk idv kindv weightv v1 v2 v3 v4 v5 v6 v7
            (bits &&& 128 != 0)).plastic = v1 from rfl, hs1, t0, ebits]
    · rw [show (MaterialV1.mk idv kindv weightv v1 v2 v3 v4 v5 v6 v7
            (bits &&& 128 != 0)).roughness = v2 from rfl, hs2, t1, ebits]
    · rw [show (MaterialV1.mk idv kindv weightv v1 v2 v3 v4 v5 v6 v7
            (bits &&& 128 != 0)).specular = v3 from rfl, hs3, t2, ebits]
    · rw [show (MaterialV1.mk idv kindv weightv v1 v2 v3 v4 v5 v6 v7
            (bits &&& 128 != 0)).ior = v4 from rfl, hs4, t3, ebits]
    · rw [show (MaterialV1.mk idv kindv weightv v1 v2 v3 v4 v5 v6 v7
            (bits &&& 128 != 0)).attenuation = v5 from rfl, hs5, t4, ebits]
    · rw [show (MaterialV1.mk idv kindv weightv v1 v2 v3 v4 v5 v6 v7
            (bits &&& 128 != 0)).power = v6 from rfl, hs6, t5, ebits]
    · rw [show (MaterialV1.mk idv kindv weightv v1 v2 v3 v4 v5 v6 v7
            (bits &&& 128 != 0)).glow = v7 from rfl, hs7, t6, ebits]
    · rw [show (MaterialV1.mk idv kindv weightv v1 v2 v3 v4 v5 v6 v7
            (bits &&& 128 != 0)).is_total_power = (bits &&& 128 != 0) from rfl, t7, ebits]
    · rw [hrfin, ebits]
      congr 1
      unfold gateCount
      omega
  · rfl

/-- Witness for C6: the general bitmask law instantiated at the concrete
0x05 payload mattBytes05. -/
theorem claim6_matt_bitmask_witness :
    (some (1036831949 : F32)).isSome = (u32LE (mattBytes05.drop 12)).testBit 0 ∧
    (none : Option F32).isSome = (u32LE (mattBytes05.drop 12)).testBit 1 ∧
    (some (1008981770 : F32)).isSome = (u32LE (mattBytes05.drop 12)).testBit 2 ∧
    (none : Option F32).isSome = (u32LE (mattBytes05.drop 12)).testBit 3 ∧
    (none : Option F32).isSome = (u32LE (mattBytes05.drop 12)).testBit 4 ∧
    (none : Option F32).isSome = (u32LE (mattBytes05.drop 12)).testBit 5 ∧
    (none : Option F32).isSome = (u32LE (mattBytes05.drop 12)).testBit 6 ∧
    false = (u32LE (mattBytes05.drop 12)).testBit 7 ∧
    ([] : Bytes) = mattBytes05.drop (16 + 4 * gateCount (u32LE (mattBytes05.drop 12))) :=
  claim6_matt_bitmask.1 mattBytes05 []
    ⟨7, 1, 1065353216, some 1036831949, none, some 1008981770, none, none, none, none, false⟩ rfl

end Vox
